import Mathlib

/-!
# World-to-screen projection of `main.c`

A shallow embedding of the projection pipeline of `src/main.c`
(`RotateAroundAxis`, `CameraTransform`, `WorldToScreen`) and theorems about it.

Conventions of the embedding:

* C `float` arithmetic is read as exact arithmetic in a linearly ordered field `R`.
  The definitions are polymorphic in `R` and in the `<math.h>` functions `sin`, `cos`
  and `tan`, which they take as arguments; they are computable (they run on `ℚ` with
  any rational `sin`/`cos`/`tan`), and the theorems instantiate them at `ℝ` with
  `Real.sin`, `Real.cos` and `Real.tan`.
* Division is the field's total division (`a / 0 = 0`); the source has no guard of its
  own against a zero divisor.
* A function that mutates `Entity *point` becomes a function returning the new
  `Entity`. `WorldToScreen` takes two pointers, assumed to point at distinct objects
  (as in `main`), and returns the pair of both entities after the call.
  `WorldToScreenMem` is the same function on a memory of entities addressed by
  pointers, which may alias; `WorldToScreenTraced` also logs the calls of
  `CameraTransform`.
-/

namespace HeadESP

/-- The `Entity` struct of `main.c`: three coordinates, pitch, yaw (all `float`) and
the `int` health. -/
structure Entity (R : Type) where
  x : R
  y : R
  z : R
  pitch : R
  yaw : R
  hp : Int
deriving DecidableEq, Repr

/-- The constant `RADIAN = 0.0174532925` declared in `RotateAroundAxis` and in
`CameraTransform` ("amount of radians in 1 degree"). -/
def RADIAN (R : Type) [LinearOrderedField R] : R := 0.0174532925

/-- Function `RotateAroundAxis(point, Axis, angle)`: returns at once on an axis other than
`'X'`, `'Y'`, `'Z'`; otherwise recombines the two coordinates off the axis with
`SINE = sin(angle * RADIAN)` and `COSINE = cos(angle * RADIAN)`. -/
def RotateAroundAxis {R : Type} [LinearOrderedField R] (sin cos : R → R)
    (point : Entity R) (Axis : Char) (angle : R) : Entity R :=
  if Axis ≠ 'X' ∧ Axis ≠ 'Y' ∧ Axis ≠ 'Z' then point
  else
    let SINE := sin (angle * RADIAN R)
    let COSINE := cos (angle * RADIAN R)
    if Axis = 'X' then
      let y := point.y * COSINE + point.z * -SINE
      let z := point.y * SINE + point.z * COSINE
      { point with y := y, z := z }
    else if Axis = 'Y' then
      let x := point.x * COSINE + point.z * SINE
      let z := point.x * -SINE + point.z * COSINE
      { point with x := x, z := z }
    else if Axis = 'Z' then
      let x := point.x * COSINE + point.y * -SINE
      let y := point.x * SINE + point.y * COSINE
      { point with x := x, y := y }
    else point

/-- Function `CameraTransform(point, Y_Fov)`: with `CTG_X = 1` and
`CTG_Y = 1 / tan(Y_Fov * RADIAN)`, writes `x * CTG_X / -z` into `x` and then
`y * CTG_Y / -z` into `y`. The body assigns nothing to `z`. -/
def CameraTransform {R : Type} [LinearOrderedField R] (tan : R → R)
    (point : Entity R) (Y_Fov : R) : Entity R :=
  let CTG_X : R := 1
  let CTG_Y : R := 1 / tan (Y_Fov * RADIAN R)
  let p1 : Entity R := { point with x := point.x * CTG_X / -point.z }
  { p1 with y := p1.y * CTG_Y / -p1.z }

/-- Function `WorldToScreen(Player, Enemy, Y_Fov, WindowX, WindowY)`: the pair of `*Player` and
`*Enemy` after the call. -/
def WorldToScreen {R : Type} [LinearOrderedField R] (sin cos tan : R → R)
    (Player Enemy : Entity R) (Y_Fov WindowX WindowY : R) : Entity R × Entity R :=
  let e1 : Entity R := { Enemy with x := Enemy.x - Player.x }
  let e2 : Entity R := { e1 with y := e1.y - Player.y }
  let e3 : Entity R := { e2 with z := e2.z - Player.z }
  let e4 := RotateAroundAxis sin cos e3 'Y' Player.yaw
  let e5 := RotateAroundAxis sin cos e4 'X' (-Player.pitch)
  if e5.z ≥ 0 then
    (Player, { e5 with x := -1 })
  else
    let e6 := CameraTransform tan e5 (Y_Fov / 2)
    if e6.x ≥ -1 ∧ e6.x ≤ 1 ∧ e6.y ≥ -1 ∧ e6.y ≤ 1 then
      let e7 : Entity R := { e6 with x := (e6.x + 1) * WindowX / 2 }
      (Player, { e7 with y := WindowY - ((e7.y + 1) * WindowY / 2) })
    else
      (Player, { e6 with x := -1 })

/-- The target in the viewpoint's camera space, as the claims describe it: the
viewpoint's position subtracted, then rotated about `'Y'` by the viewpoint's yaw, then
about `'X'` by the negated pitch. -/
def cameraSpace {R : Type} [LinearOrderedField R] (sin cos : R → R)
    (Player Enemy : Entity R) : Entity R :=
  RotateAroundAxis sin cos
    (RotateAroundAxis sin cos
      { Enemy with x := Enemy.x - Player.x, y := Enemy.y - Player.y, z := Enemy.z - Player.z }
      'Y' Player.yaw)
    'X' (-Player.pitch)

/-- Function `WorldToScreen` with a log of its calls to `CameraTransform`: the same
statements as `WorldToScreen`, returning also the list of `(point, Y_Fov)` arguments
with which `CameraTransform` was invoked, in call order. -/
def WorldToScreenTraced {R : Type} [LinearOrderedField R] (sin cos tan : R → R)
    (Player Enemy : Entity R) (Y_Fov WindowX WindowY : R) :
    (Entity R × Entity R) × List (Entity R × R) :=
  let e1 : Entity R := { Enemy with x := Enemy.x - Player.x }
  let e2 : Entity R := { e1 with y := e1.y - Player.y }
  let e3 : Entity R := { e2 with z := e2.z - Player.z }
  let e4 := RotateAroundAxis sin cos e3 'Y' Player.yaw
  let e5 := RotateAroundAxis sin cos e4 'X' (-Player.pitch)
  if e5.z ≥ 0 then
    ((Player, { e5 with x := -1 }), [])
  else
    let e6 := CameraTransform tan e5 (Y_Fov / 2)
    if e6.x ≥ -1 ∧ e6.x ≤ 1 ∧ e6.y ≥ -1 ∧ e6.y ≤ 1 then
      let e7 : Entity R := { e6 with x := (e6.x + 1) * WindowX / 2 }
      ((Player, { e7 with y := WindowY - ((e7.y + 1) * WindowY / 2) }),
        [(e5, Y_Fov / 2)])
    else
      ((Player, { e6 with x := -1 }), [(e5, Y_Fov / 2)])

/-- Function `WorldToScreen` on a memory of entities addressed by pointers: every read
`Player->f` and `Enemy->f` goes through the memory at the time of the statement and
every assignment updates the cell `Enemy` points to, so the two pointers may alias. -/
def WorldToScreenMem {R : Type} [LinearOrderedField R] (sin cos tan : R → R)
    (mem : Nat → Entity R) (Player Enemy : Nat) (Y_Fov WindowX WindowY : R) :
    Nat → Entity R :=
  let m1 := Function.update mem Enemy { mem Enemy with x := (mem Enemy).x - (mem Player).x }
  let m2 := Function.update m1 Enemy { m1 Enemy with y := (m1 Enemy).y - (m1 Player).y }
  let m3 := Function.update m2 Enemy { m2 Enemy with z := (m2 Enemy).z - (m2 Player).z }
  let m4 := Function.update m3 Enemy (RotateAroundAxis sin cos (m3 Enemy) 'Y' (m3 Player).yaw)
  let m5 := Function.update m4 Enemy
    (RotateAroundAxis sin cos (m4 Enemy) 'X' (-(m4 Player).pitch))
  if (m5 Enemy).z ≥ 0 then
    Function.update m5 Enemy { m5 Enemy with x := -1 }
  else
    let m6 := Function.update m5 Enemy (CameraTransform tan (m5 Enemy) (Y_Fov / 2))
    if (m6 Enemy).x ≥ -1 ∧ (m6 Enemy).x ≤ 1 ∧ (m6 Enemy).y ≥ -1 ∧ (m6 Enemy).y ≤ 1 then
      let m7 := Function.update m6 Enemy
        { m6 Enemy with x := ((m6 Enemy).x + 1) * WindowX / 2 }
      Function.update m7 Enemy
        { m7 Enemy with y := WindowY - (((m7 Enemy).y + 1) * WindowY / 2) }
    else
      Function.update m6 Enemy { m6 Enemy with x := -1 }

/-! ## Auxiliary facts -/

theorem RADIAN_pos : 0 < RADIAN ℝ := by
  unfold RADIAN; norm_num

/-- Half of a field of view below 180 degrees is, in the code's radians, an angle
strictly between 0 and a right angle. -/
theorem RADIAN_mul_lt_pi_div_two (h : ℝ) (h90 : h < 90) : h * RADIAN ℝ < Real.pi / 2 := by
  have hpi := Real.pi_gt_d20
  have h1 : h * RADIAN ℝ < 90 * RADIAN ℝ := mul_lt_mul_of_pos_right h90 RADIAN_pos
  have h2 : (90 : ℝ) * RADIAN ℝ < Real.pi / 2 := by
    unfold RADIAN
    norm_num at hpi ⊢
    linarith
  exact lt_trans h1 h2

theorem tan_RADIAN_pos (h : ℝ) (h0 : 0 < h) (h90 : h < 90) :
    0 < Real.tan (h * RADIAN ℝ) :=
  Real.tan_pos_of_pos_of_lt_pi_div_two (mul_pos h0 RADIAN_pos)
    (RADIAN_mul_lt_pi_div_two h h90)

/-- For a point with `z < 0` and a half field of view `h` with `0 < h < 90`
degrees, the output of `CameraTransform` has both `x'` and `y'` in `[-1, 1]` if and only
if the point is inside the view frustum: `|x| ≤ -z` and `|y| ≤ -z * tan(h * RADIAN)`. -/
theorem in_square_iff_frustum (p : Entity ℝ) (h : ℝ) (hz : p.z < 0)
    (h0 : 0 < h) (h90 : h < 90) :
    (-1 ≤ (CameraTransform Real.tan p h).x ∧ (CameraTransform Real.tan p h).x ≤ 1 ∧
      -1 ≤ (CameraTransform Real.tan p h).y ∧ (CameraTransform Real.tan p h).y ≤ 1) ↔
    (|p.x| ≤ -p.z ∧ |p.y| ≤ -p.z * Real.tan (h * RADIAN ℝ)) := by
  have hT : 0 < Real.tan (h * RADIAN ℝ) := tan_RADIAN_pos h h0 h90
  have hnz : 0 < -p.z := neg_pos.mpr hz
  have hx : (CameraTransform Real.tan p h).x = p.x / -p.z := by
    show p.x * 1 / -p.z = p.x / -p.z
    rw [mul_one]
  have hy : (CameraTransform Real.tan p h).y = p.y / (-p.z * Real.tan (h * RADIAN ℝ)) := by
    show p.y * (1 / Real.tan (h * RADIAN ℝ)) / -p.z = _
    rw [mul_one_div, div_div, mul_comm (Real.tan (h * RADIAN ℝ))]
  have hd : 0 < -p.z * Real.tan (h * RADIAN ℝ) := mul_pos hnz hT
  rw [hx, hy, abs_le, abs_le, le_div_iff₀ hnz, div_le_iff₀ hnz, le_div_iff₀ hd,
    div_le_iff₀ hd]
  constructor
  · rintro ⟨a, b, c, d⟩
    exact ⟨⟨by linarith, by linarith⟩, ⟨by linarith, by linarith⟩⟩
  · rintro ⟨⟨a, b⟩, ⟨c, d⟩⟩
    exact ⟨by linarith, by linarith, by linarith, by linarith⟩

/-- A full turn in the code's radians, `360 * RADIAN`, falls short of `2π` by less than
`1e-8`; so its sine and its cosine are within `1e-5` of 0 and of 1. -/
theorem sin_cos_full_turn :
    |Real.sin (360 * RADIAN ℝ)| ≤ 0.00001 ∧ |Real.cos (360 * RADIAN ℝ) - 1| ≤ 0.00001 := by
  have hgt := Real.pi_gt_d20
  have hlt := Real.pi_lt_d20
  have ht : (360 : ℝ) * RADIAN ℝ = 6.2831853 := by
    unfold RADIAN; norm_num
  have hd0 : 0 < 2 * Real.pi - 360 * RADIAN ℝ := by
    rw [ht]; norm_num at hgt ⊢; linarith
  have hd1 : 2 * Real.pi - 360 * RADIAN ℝ < 0.00000001 := by
    rw [ht]; norm_num at hlt ⊢; linarith
  have hdpi : 2 * Real.pi - 360 * RADIAN ℝ < Real.pi := by
    have := Real.pi_gt_three
    norm_num at hd1
    linarith
  have hsin : Real.sin (360 * RADIAN ℝ) = -Real.sin (2 * Real.pi - 360 * RADIAN ℝ) := by
    rw [Real.sin_two_pi_sub, neg_neg]
  have hcos : Real.cos (360 * RADIAN ℝ) = Real.cos (2 * Real.pi - 360 * RADIAN ℝ) := by
    rw [Real.cos_two_pi_sub]
  have hs0 := Real.sin_pos_of_pos_of_lt_pi hd0 hdpi
  have hs1 := Real.sin_lt hd0
  have hc0 := Real.one_sub_sq_div_two_le_cos (x := 2 * Real.pi - 360 * RADIAN ℝ)
  have hc1 := Real.cos_le_one (2 * Real.pi - 360 * RADIAN ℝ)
  have hsq : (2 * Real.pi - 360 * RADIAN ℝ) ^ 2 ≤ 0.00000001 := by
    norm_num at hd1 ⊢
    nlinarith
  constructor
  · rw [hsin, abs_neg, abs_of_pos hs0]
    norm_num at hd1 ⊢
    linarith
  · rw [hcos, abs_le]
    norm_num at hsq ⊢
    constructor <;> linarith

/-- Mixing `a` and `b` with a cosine within `ε` of 1 and a sine within `ε` of 0 moves
`a` by at most `ε * (|a| + |b|)`. -/
theorem mix_close (a b s c ε : ℝ) (hs : |s| ≤ ε) (hc : |c - 1| ≤ ε) :
    |a * c + b * s - a| ≤ ε * (|a| + |b|) := by
  have h1 : a * c + b * s - a = a * (c - 1) + b * s := by ring
  have h2 : |a * (c - 1)| ≤ |a| * ε := by
    rw [abs_mul]; exact mul_le_mul_of_nonneg_left hc (abs_nonneg a)
  have h3 : |b * s| ≤ |b| * ε := by
    rw [abs_mul]; exact mul_le_mul_of_nonneg_left hs (abs_nonneg b)
  rw [h1]
  calc |a * (c - 1) + b * s| ≤ |a * (c - 1)| + |b * s| := abs_add _ _
    _ ≤ |a| * ε + |b| * ε := add_le_add h2 h3
    _ = ε * (|a| + |b|) := by ring

/-! ## Axis rotation -/

section unfolding

variable {R : Type} [LinearOrderedField R] (sin cos tan : R → R)

/-- The `'X'` branch of `RotateAroundAxis`, as the source computes it. -/
theorem RotateAroundAxis_X (p : Entity R) (angle : R) :
    RotateAroundAxis sin cos p 'X' angle =
      { p with
        y := p.y * cos (angle * RADIAN R) + p.z * -sin (angle * RADIAN R),
        z := p.y * sin (angle * RADIAN R) + p.z * cos (angle * RADIAN R) } := by
  simp only [RotateAroundAxis, show ('X' : Char) ≠ 'Y' by decide,
    show ('X' : Char) ≠ 'Z' by decide, ne_eq, not_true_eq_false, not_false_eq_true,
    false_and, and_false, and_true, if_true, if_false]

/-- The `'Y'` branch of `RotateAroundAxis`, as the source computes it. -/
theorem RotateAroundAxis_Y (p : Entity R) (angle : R) :
    RotateAroundAxis sin cos p 'Y' angle =
      { p with
        x := p.x * cos (angle * RADIAN R) + p.z * sin (angle * RADIAN R),
        z := p.x * -sin (angle * RADIAN R) + p.z * cos (angle * RADIAN R) } := by
  simp only [RotateAroundAxis, show ('Y' : Char) ≠ 'X' by decide,
    show ('Y' : Char) ≠ 'Z' by decide, ne_eq, not_true_eq_false, not_false_eq_true,
    false_and, and_false, and_true, if_true, if_false]

/-- The `'Z'` branch of `RotateAroundAxis`, as the source computes it. -/
theorem RotateAroundAxis_Z (p : Entity R) (angle : R) :
    RotateAroundAxis sin cos p 'Z' angle =
      { p with
        x := p.x * cos (angle * RADIAN R) + p.y * -sin (angle * RADIAN R),
        y := p.x * sin (angle * RADIAN R) + p.y * cos (angle * RADIAN R) } := by
  simp only [RotateAroundAxis, show ('Z' : Char) ≠ 'X' by decide,
    show ('Z' : Char) ≠ 'Y' by decide, ne_eq, not_true_eq_false, not_false_eq_true,
    false_and, and_false, and_true, if_true, if_false]

/-- Unfolding of `WorldToScreen` in terms of the camera-space point: the three subtractions and the
two rotations of the source are `cameraSpace`. -/
theorem WorldToScreen_eq (Player Enemy : Entity R) (Y_Fov WindowX WindowY : R) :
    WorldToScreen sin cos tan Player Enemy Y_Fov WindowX WindowY =
      if (cameraSpace sin cos Player Enemy).z ≥ 0 then
        (Player, { cameraSpace sin cos Player Enemy with x := -1 })
      else
        if (CameraTransform tan (cameraSpace sin cos Player Enemy) (Y_Fov / 2)).x ≥ -1 ∧
            (CameraTransform tan (cameraSpace sin cos Player Enemy) (Y_Fov / 2)).x ≤ 1 ∧
            (CameraTransform tan (cameraSpace sin cos Player Enemy) (Y_Fov / 2)).y ≥ -1 ∧
            (CameraTransform tan (cameraSpace sin cos Player Enemy) (Y_Fov / 2)).y ≤ 1 then
          (Player,
            { CameraTransform tan (cameraSpace sin cos Player Enemy) (Y_Fov / 2) with
              x := ((CameraTransform tan (cameraSpace sin cos Player Enemy) (Y_Fov / 2)).x + 1)
                * WindowX / 2,
              y := WindowY -
                (((CameraTransform tan (cameraSpace sin cos Player Enemy) (Y_Fov / 2)).y + 1)
                  * WindowY / 2) })
        else
          (Player,
            { CameraTransform tan (cameraSpace sin cos Player Enemy) (Y_Fov / 2) with
              x := -1 }) :=
  rfl

/-- Behind-camera branch of `WorldToScreen`. -/
theorem WorldToScreen_behind (Player Enemy : Entity R) (Y_Fov WindowX WindowY : R)
    (hz : (cameraSpace sin cos Player Enemy).z ≥ 0) :
    (WorldToScreen sin cos tan Player Enemy Y_Fov WindowX WindowY).2.x = -1 := by
  rw [WorldToScreen_eq, if_pos hz]

/-- On-screen branch of `WorldToScreen`. -/
theorem WorldToScreen_on_screen (Player Enemy : Entity R) (Y_Fov WindowX WindowY : R)
    (hz : (cameraSpace sin cos Player Enemy).z < 0)
    (hin : (CameraTransform tan (cameraSpace sin cos Player Enemy) (Y_Fov / 2)).x ≥ -1 ∧
      (CameraTransform tan (cameraSpace sin cos Player Enemy) (Y_Fov / 2)).x ≤ 1 ∧
      (CameraTransform tan (cameraSpace sin cos Player Enemy) (Y_Fov / 2)).y ≥ -1 ∧
      (CameraTransform tan (cameraSpace sin cos Player Enemy) (Y_Fov / 2)).y ≤ 1) :
    (WorldToScreen sin cos tan Player Enemy Y_Fov WindowX WindowY).2.x =
      ((CameraTransform tan (cameraSpace sin cos Player Enemy) (Y_Fov / 2)).x + 1)
        * WindowX / 2 ∧
    (WorldToScreen sin cos tan Player Enemy Y_Fov WindowX WindowY).2.y =
      WindowY - (((CameraTransform tan (cameraSpace sin cos Player Enemy) (Y_Fov / 2)).y + 1)
        * WindowY / 2) := by
  rw [WorldToScreen_eq, if_neg (not_le.mpr hz), if_pos hin]
  exact ⟨rfl, rfl⟩

/-- Outside-the-square branch of `WorldToScreen`. -/
theorem WorldToScreen_off_square (Player Enemy : Entity R) (Y_Fov WindowX WindowY : R)
    (hz : (cameraSpace sin cos Player Enemy).z < 0)
    (hout : ¬ ((CameraTransform tan (cameraSpace sin cos Player Enemy) (Y_Fov / 2)).x ≥ -1 ∧
      (CameraTransform tan (cameraSpace sin cos Player Enemy) (Y_Fov / 2)).x ≤ 1 ∧
      (CameraTransform tan (cameraSpace sin cos Player Enemy) (Y_Fov / 2)).y ≥ -1 ∧
      (CameraTransform tan (cameraSpace sin cos Player Enemy) (Y_Fov / 2)).y ≤ 1)) :
    (WorldToScreen sin cos tan Player Enemy Y_Fov WindowX WindowY).2.x = -1 := by
  rw [WorldToScreen_eq, if_neg (not_le.mpr hz), if_neg hout]

/-- The body of `CameraTransform` assigns nothing to `z`. -/
theorem CameraTransform_z (p : Entity R) (Y_Fov : R) :
    (CameraTransform tan p Y_Fov).z = p.z :=
  rfl

/-- In every branch `WorldToScreen` leaves in `Enemy.z` the camera-space depth. -/
theorem WorldToScreen_z (Player Enemy : Entity R) (Y_Fov WindowX WindowY : R) :
    (WorldToScreen sin cos tan Player Enemy Y_Fov WindowX WindowY).2.z =
      (cameraSpace sin cos Player Enemy).z := by
  rw [WorldToScreen_eq]
  split_ifs <;> rfl

/-- The first component of the pair returned by `WorldToScreen` is the viewpoint it was
given. -/
theorem WorldToScreen_fst (Player Enemy : Entity R) (Y_Fov WindowX WindowY : R) :
    (WorldToScreen sin cos tan Player Enemy Y_Fov WindowX WindowY).1 = Player := by
  rw [WorldToScreen_eq]
  split_ifs <;> rfl

/-- Pitch, yaw and hp of the camera-space point are those of the target. -/
theorem cameraSpace_fields (Player Enemy : Entity R) :
    (cameraSpace sin cos Player Enemy).pitch = Enemy.pitch ∧
    (cameraSpace sin cos Player Enemy).yaw = Enemy.yaw ∧
    (cameraSpace sin cos Player Enemy).hp = Enemy.hp := by
  simp only [cameraSpace, RotateAroundAxis_X, RotateAroundAxis_Y, and_self]

/-- Pitch, yaw and hp of the target are not written by `WorldToScreen`. -/
theorem WorldToScreen_fields (Player Enemy : Entity R) (Y_Fov WindowX WindowY : R) :
    (WorldToScreen sin cos tan Player Enemy Y_Fov WindowX WindowY).2.pitch = Enemy.pitch ∧
    (WorldToScreen sin cos tan Player Enemy Y_Fov WindowX WindowY).2.yaw = Enemy.yaw ∧
    (WorldToScreen sin cos tan Player Enemy Y_Fov WindowX WindowY).2.hp = Enemy.hp := by
  obtain ⟨h1, h2, h3⟩ := cameraSpace_fields sin cos Player Enemy
  rw [WorldToScreen_eq]
  split_ifs
  · exact ⟨h1, h2, h3⟩
  · exact ⟨h1, h2, h3⟩
  · exact ⟨h1, h2, h3⟩

/-- The traced function computes the result of `WorldToScreen`. -/
theorem WorldToScreenTraced_fst (Player Enemy : Entity R) (Y_Fov WindowX WindowY : R) :
    (WorldToScreenTraced sin cos tan Player Enemy Y_Fov WindowX WindowY).1 =
      WorldToScreen sin cos tan Player Enemy Y_Fov WindowX WindowY := by
  unfold WorldToScreenTraced WorldToScreen
  simp only
  split_ifs <;> rfl

/-- The log of `CameraTransform` calls: none behind the camera, otherwise one call, on
the camera-space point with `Y_Fov / 2`. -/
theorem WorldToScreenTraced_snd (Player Enemy : Entity R) (Y_Fov WindowX WindowY : R) :
    (WorldToScreenTraced sin cos tan Player Enemy Y_Fov WindowX WindowY).2 =
      if (cameraSpace sin cos Player Enemy).z ≥ 0 then []
      else [(cameraSpace sin cos Player Enemy, Y_Fov / 2)] := by
  unfold WorldToScreenTraced cameraSpace
  simp only
  split_ifs <;> rfl

/-- Only the cell `Enemy` points to is written by `WorldToScreenMem`. -/
theorem WorldToScreenMem_other (mem : Nat → Entity R) (Player Enemy : Nat)
    (Y_Fov WindowX WindowY : R) (a : Nat) (ha : a ≠ Enemy) :
    WorldToScreenMem sin cos tan mem Player Enemy Y_Fov WindowX WindowY a = mem a := by
  unfold WorldToScreenMem
  simp only
  split_ifs <;> simp only [Function.update_noteq ha]

/-- With distinct pointers, the cell `Enemy` points to ends as the target returned by
`WorldToScreen` on the two entities read before the call. -/
theorem WorldToScreenMem_target (mem : Nat → Entity R) (Player Enemy : Nat)
    (Y_Fov WindowX WindowY : R) (hne : Player ≠ Enemy) :
    WorldToScreenMem sin cos tan mem Player Enemy Y_Fov WindowX WindowY Enemy =
      (WorldToScreen sin cos tan (mem Player) (mem Enemy) Y_Fov WindowX WindowY).2 := by
  unfold WorldToScreenMem WorldToScreen
  simp only [Function.update_same, Function.update_noteq hne]
  split_ifs <;> simp only [Function.update_same]

end unfolding

/-- With zero pitch and yaw both rotations are the identity, so the camera-space point
is the translated target. -/
theorem cameraSpace_zero_angles (Player Enemy : Entity ℝ)
    (hp : Player.pitch = 0) (hy : Player.yaw = 0) :
    cameraSpace Real.sin Real.cos Player Enemy =
      { Enemy with
        x := Enemy.x - Player.x, y := Enemy.y - Player.y, z := Enemy.z - Player.z } := by
  simp only [cameraSpace, RotateAroundAxis_X, RotateAroundAxis_Y, hp, hy, neg_zero, zero_mul,
    Real.sin_zero, Real.cos_zero, mul_one, mul_zero, add_zero, zero_add]

/-- C5: with `t = angle * RADIAN`, `RotateAroundAxis` about `'X'` yields
`(x, y*cos t - z*sin t, y*sin t + z*cos t)`, about `'Y'` yields
`(x*cos t + z*sin t, y, -x*sin t + z*cos t)` and about `'Z'` yields
`(x*cos t - y*sin t, x*sin t + y*cos t, z)`; every other field, the coordinate along
the axis among them, is unchanged. -/
theorem RotateAroundAxis_formulas (p : Entity ℝ) (angle : ℝ) :
    RotateAroundAxis Real.sin Real.cos p 'X' angle =
        { p with
          y := p.y * Real.cos (angle * RADIAN ℝ) - p.z * Real.sin (angle * RADIAN ℝ),
          z := p.y * Real.sin (angle * RADIAN ℝ) + p.z * Real.cos (angle * RADIAN ℝ) } ∧
    RotateAroundAxis Real.sin Real.cos p 'Y' angle =
        { p with
          x := p.x * Real.cos (angle * RADIAN ℝ) + p.z * Real.sin (angle * RADIAN ℝ),
          z := -p.x * Real.sin (angle * RADIAN ℝ) + p.z * Real.cos (angle * RADIAN ℝ) } ∧
    RotateAroundAxis Real.sin Real.cos p 'Z' angle =
        { p with
          x := p.x * Real.cos (angle * RADIAN ℝ) - p.y * Real.sin (angle * RADIAN ℝ),
          y := p.x * Real.sin (angle * RADIAN ℝ) + p.y * Real.cos (angle * RADIAN ℝ) } := by
  refine ⟨?_, ?_, ?_⟩
  · rw [RotateAroundAxis_X]
    simp only [Entity.mk.injEq, true_and, and_true]
    ring
  · rw [RotateAroundAxis_Y]
    simp only [Entity.mk.injEq, true_and, and_true]
    ring
  · rw [RotateAroundAxis_Z]
    simp only [Entity.mk.injEq, true_and, and_true]
    ring

/-- C6: on an axis selector other than `'X'`, `'Y'` and `'Z'`, `RotateAroundAxis`
returns the point with every field (x, y, z, pitch, yaw, hp) unchanged; the function is
total and has no error result. -/
theorem RotateAroundAxis_invalid_axis (p : Entity ℝ) (Axis : Char) (angle : ℝ)
    (hX : Axis ≠ 'X') (hY : Axis ≠ 'Y') (hZ : Axis ≠ 'Z') :
    RotateAroundAxis Real.sin Real.cos p Axis angle = p := by
  simp only [RotateAroundAxis]
  rw [if_pos ⟨hX, hY, hZ⟩]

theorem RotateAroundAxis_invalid_axis_witness :
    ('W' : Char) ≠ 'X' ∧ ('W' : Char) ≠ 'Y' ∧ ('W' : Char) ≠ 'Z' ∧
    RotateAroundAxis Real.sin Real.cos ⟨1, 2, 3, 10, 20, 100⟩ 'W' 30 =
      ⟨1, 2, 3, 10, 20, 100⟩ :=
  ⟨by decide, by decide, by decide,
    RotateAroundAxis_invalid_axis ⟨1, 2, 3, 10, 20, 100⟩ 'W' 30
      (by decide) (by decide) (by decide)⟩

/-- C10: about an axis in `'X'`, `'Y'`, `'Z'`, `RotateAroundAxis` by `a` followed by
`RotateAroundAxis` by `-a` returns the original point: x, y and z (and the other fields)
have their original values. -/
theorem RotateAroundAxis_round_trip (p : Entity ℝ) (Axis : Char) (a : ℝ)
    (hAxis : Axis = 'X' ∨ Axis = 'Y' ∨ Axis = 'Z') :
    RotateAroundAxis Real.sin Real.cos (RotateAroundAxis Real.sin Real.cos p Axis a) Axis (-a)
      = p := by
  have hs := Real.sin_sq_add_cos_sq (a * RADIAN ℝ)
  rcases p with ⟨x, y, z, pitch, yaw, hp⟩
  rcases hAxis with h | h | h
  · subst h
    rw [RotateAroundAxis_X, RotateAroundAxis_X]
    simp only [neg_mul, Real.sin_neg, Real.cos_neg, neg_neg, Entity.mk.injEq, true_and,
      and_true]
    constructor
    · linear_combination y * hs
    · linear_combination z * hs
  · subst h
    rw [RotateAroundAxis_Y, RotateAroundAxis_Y]
    simp only [neg_mul, Real.sin_neg, Real.cos_neg, neg_neg, Entity.mk.injEq, true_and,
      and_true]
    constructor
    · linear_combination x * hs
    · linear_combination z * hs
  · subst h
    rw [RotateAroundAxis_Z, RotateAroundAxis_Z]
    simp only [neg_mul, Real.sin_neg, Real.cos_neg, neg_neg, Entity.mk.injEq, true_and,
      and_true]
    constructor
    · linear_combination x * hs
    · linear_combination y * hs

theorem RotateAroundAxis_round_trip_witness :
    (('Y' : Char) = 'X' ∨ ('Y' : Char) = 'Y' ∨ ('Y' : Char) = 'Z') ∧
    RotateAroundAxis Real.sin Real.cos
      (RotateAroundAxis Real.sin Real.cos ⟨1, 2, 3, 10, 20, 100⟩ 'Y' 30) 'Y' (-30)
      = ⟨1, 2, 3, 10, 20, 100⟩ :=
  ⟨Or.inr (Or.inl rfl),
    RotateAroundAxis_round_trip ⟨1, 2, 3, 10, 20, 100⟩ 'Y' 30 (Or.inr (Or.inl rfl))⟩

/-! ## Camera transform -/

/-- C7: for a point with `z < 0` and a half field of view `Y_Fov` in degrees,
`CameraTransform` yields `x' = x * 1 / -z` and `y' = y * cot(Y_Fov * RADIAN) / -z` with
`cot a = 1 / tan a`; the horizontal factor is the constant 1. -/
theorem CameraTransform_formulas (p : Entity ℝ) (Y_Fov : ℝ) (hz : p.z < 0) :
    (CameraTransform Real.tan p Y_Fov).x = p.x * 1 / -p.z ∧
    (CameraTransform Real.tan p Y_Fov).y =
      p.y * (1 / Real.tan (Y_Fov * RADIAN ℝ)) / -p.z := by
  have _ := hz
  exact ⟨rfl, rfl⟩

theorem CameraTransform_formulas_witness :
    (⟨2, 3, -4, 0, 0, 100⟩ : Entity ℝ).z < 0 ∧
    (CameraTransform Real.tan ⟨2, 3, -4, 0, 0, 100⟩ 45).x = 2 * 1 / -(-4) ∧
    (CameraTransform Real.tan ⟨2, 3, -4, 0, 0, 100⟩ 45).y =
      3 * (1 / Real.tan (45 * RADIAN ℝ)) / -(-4) :=
  ⟨by norm_num, CameraTransform_formulas ⟨2, 3, -4, 0, 0, 100⟩ 45 (by norm_num)⟩

/-- C8: for a point with `z < 0` and a half field of view `h` with `0 < h < 90`
degrees, the output `(x', y')` of `CameraTransform` satisfies `-1 ≤ x' ≤ 1` and
`-1 ≤ y' ≤ 1` if and only if the point is inside the view frustum, that is
`|x| ≤ -z` and `|y| ≤ -z * tan(h * RADIAN)`. -/
theorem CameraTransform_in_square_iff (p : Entity ℝ) (h : ℝ) (hz : p.z < 0)
    (h0 : 0 < h) (h90 : h < 90) :
    (-1 ≤ (CameraTransform Real.tan p h).x ∧ (CameraTransform Real.tan p h).x ≤ 1 ∧
      -1 ≤ (CameraTransform Real.tan p h).y ∧ (CameraTransform Real.tan p h).y ≤ 1) ↔
    (|p.x| ≤ -p.z ∧ |p.y| ≤ -p.z * Real.tan (h * RADIAN ℝ)) :=
  in_square_iff_frustum p h hz h0 h90

theorem CameraTransform_in_square_iff_witness :
    (⟨2, 3, -4, 0, 0, 100⟩ : Entity ℝ).z < 0 ∧ (0 : ℝ) < 45 ∧ (45 : ℝ) < 90 ∧
    ((-1 ≤ (CameraTransform Real.tan ⟨2, 3, -4, 0, 0, 100⟩ 45).x ∧
      (CameraTransform Real.tan ⟨2, 3, -4, 0, 0, 100⟩ 45).x ≤ 1 ∧
      -1 ≤ (CameraTransform Real.tan ⟨2, 3, -4, 0, 0, 100⟩ 45).y ∧
      (CameraTransform Real.tan ⟨2, 3, -4, 0, 0, 100⟩ 45).y ≤ 1) ↔
    (|(2 : ℝ)| ≤ -(-4) ∧ |(3 : ℝ)| ≤ -(-4) * Real.tan (45 * RADIAN ℝ))) :=
  ⟨by norm_num, by norm_num, by norm_num,
    CameraTransform_in_square_iff ⟨2, 3, -4, 0, 0, 100⟩ 45 (by norm_num) (by norm_num)
      (by norm_num)⟩

/-! ## World to screen -/

/-- C1: let `c` be the target translated by the viewpoint's position, rotated about
`'Y'` by the viewpoint's yaw and about `'X'` by its negated pitch, and let
`n.x = c.x * 1 / -c.z` and `n.y = c.y * (1 / tan((Y_Fov/2) * RADIAN)) / -c.z`. If
`c.z < 0` and `n.x`, `n.y` are both in `[-1, 1]`, `WorldToScreen` leaves
`Enemy.x = (n.x + 1) * WindowX / 2` and `Enemy.y = WindowY - (n.y + 1) * WindowY / 2`. -/
theorem WorldToScreen_pixel (Player Enemy : Entity ℝ) (Y_Fov WindowX WindowY : ℝ)
    (hz : (cameraSpace Real.sin Real.cos Player Enemy).z < 0)
    (hx1 : -1 ≤ (cameraSpace Real.sin Real.cos Player Enemy).x * 1 /
      -(cameraSpace Real.sin Real.cos Player Enemy).z)
    (hx2 : (cameraSpace Real.sin Real.cos Player Enemy).x * 1 /
      -(cameraSpace Real.sin Real.cos Player Enemy).z ≤ 1)
    (hy1 : -1 ≤ (cameraSpace Real.sin Real.cos Player Enemy).y *
      (1 / Real.tan ((Y_Fov / 2) * RADIAN ℝ)) /
      -(cameraSpace Real.sin Real.cos Player Enemy).z)
    (hy2 : (cameraSpace Real.sin Real.cos Player Enemy).y *
      (1 / Real.tan ((Y_Fov / 2) * RADIAN ℝ)) /
      -(cameraSpace Real.sin Real.cos Player Enemy).z ≤ 1) :
    (WorldToScreen Real.sin Real.cos Real.tan Player Enemy Y_Fov WindowX WindowY).2.x =
      ((cameraSpace Real.sin Real.cos Player Enemy).x * 1 /
        -(cameraSpace Real.sin Real.cos Player Enemy).z + 1) * WindowX / 2 ∧
    (WorldToScreen Real.sin Real.cos Real.tan Player Enemy Y_Fov WindowX WindowY).2.y =
      WindowY - ((cameraSpace Real.sin Real.cos Player Enemy).y *
        (1 / Real.tan ((Y_Fov / 2) * RADIAN ℝ)) /
        -(cameraSpace Real.sin Real.cos Player Enemy).z + 1) * WindowY / 2 :=
  WorldToScreen_on_screen Real.sin Real.cos Real.tan Player Enemy Y_Fov WindowX WindowY hz
    ⟨hx1, hx2, hy1, hy2⟩

/-- C2: if the target's z after the translation and the two rotations is `≥ 0`,
`WorldToScreen` leaves `Enemy.x = -1`; in particular so for a viewpoint with
`pitch = yaw = 0` and a target with `target.z - viewpoint.z > 0`. -/
theorem WorldToScreen_behind_camera (Player Enemy : Entity ℝ) (Y_Fov WindowX WindowY : ℝ) :
    ((cameraSpace Real.sin Real.cos Player Enemy).z ≥ 0 →
      (WorldToScreen Real.sin Real.cos Real.tan Player Enemy Y_Fov WindowX WindowY).2.x
        = -1) ∧
    (Player.pitch = 0 → Player.yaw = 0 → Enemy.z - Player.z > 0 →
      (WorldToScreen Real.sin Real.cos Real.tan Player Enemy Y_Fov WindowX WindowY).2.x
        = -1) := by
  refine ⟨fun hz => WorldToScreen_behind _ _ _ _ _ _ _ _ hz, fun hp hy hd => ?_⟩
  apply WorldToScreen_behind
  rw [cameraSpace_zero_angles Player Enemy hp hy]
  exact le_of_lt hd

theorem WorldToScreen_behind_camera_witness :
    (WorldToScreen Real.sin Real.cos Real.tan ⟨0, 0, 0, 0, 0, 100⟩ ⟨0, 0, 10, 0, 0, 100⟩
      90 800 600).2.x = -1 :=
  (WorldToScreen_behind_camera ⟨0, 0, 0, 0, 0, 100⟩ ⟨0, 0, 10, 0, 0, 100⟩ 90 800 600).2
    rfl rfl (by norm_num)

theorem WorldToScreen_pixel_witness :
    (cameraSpace Real.sin Real.cos ⟨0, 0, 0, 0, 0, 100⟩ ⟨5, 0, -10, 0, 0, 100⟩).z < 0 ∧
    (WorldToScreen Real.sin Real.cos Real.tan ⟨0, 0, 0, 0, 0, 100⟩ ⟨5, 0, -10, 0, 0, 100⟩
      90 800 600).2.x = 600 ∧
    (WorldToScreen Real.sin Real.cos Real.tan ⟨0, 0, 0, 0, 0, 100⟩ ⟨5, 0, -10, 0, 0, 100⟩
      90 800 600).2.y = 300 := by
  have hc : cameraSpace Real.sin Real.cos ⟨0, 0, 0, 0, 0, 100⟩ ⟨5, 0, -10, 0, 0, 100⟩ =
      ⟨5, 0, -10, 0, 0, 100⟩ := by
    rw [cameraSpace_zero_angles _ _ rfl rfl]
    simp only [sub_zero]
  have h := WorldToScreen_pixel ⟨0, 0, 0, 0, 0, 100⟩ ⟨5, 0, -10, 0, 0, 100⟩ 90 800 600
    (by rw [hc]; norm_num) (by rw [hc]; norm_num) (by rw [hc]; norm_num)
    (by rw [hc]; norm_num) (by rw [hc]; norm_num)
  rw [hc] at h
  norm_num at h
  exact ⟨by rw [hc]; norm_num, h⟩

/-- C3: for `0 < Y_Fov < 180` and a target in front of the camera (camera-space
`z < 0`), a normalized x or y after `CameraTransform` with `Y_Fov / 2` lies outside
`[-1, 1]` exactly when `|c.x| > -c.z` or `|c.y| > -c.z * tan((Y_Fov/2) * RADIAN)` for the
camera-space point `c`, and then `WorldToScreen` leaves the marker `Enemy.x = -1`. -/
theorem WorldToScreen_outside_frustum (Player Enemy : Entity ℝ)
    (Y_Fov WindowX WindowY : ℝ) (hF0 : 0 < Y_Fov) (hF180 : Y_Fov < 180)
    (hz : (cameraSpace Real.sin Real.cos Player Enemy).z < 0) :
    (((CameraTransform Real.tan (cameraSpace Real.sin Real.cos Player Enemy) (Y_Fov / 2)).x
          < -1 ∨
        1 < (CameraTransform Real.tan (cameraSpace Real.sin Real.cos Player Enemy)
          (Y_Fov / 2)).x ∨
        (CameraTransform Real.tan (cameraSpace Real.sin Real.cos Player Enemy) (Y_Fov / 2)).y
          < -1 ∨
        1 < (CameraTransform Real.tan (cameraSpace Real.sin Real.cos Player Enemy)
          (Y_Fov / 2)).y) ↔
      (|(cameraSpace Real.sin Real.cos Player Enemy).x| >
          -(cameraSpace Real.sin Real.cos Player Enemy).z ∨
        |(cameraSpace Real.sin Real.cos Player Enemy).y| >
          -(cameraSpace Real.sin Real.cos Player Enemy).z *
            Real.tan ((Y_Fov / 2) * RADIAN ℝ))) ∧
    (((CameraTransform Real.tan (cameraSpace Real.sin Real.cos Player Enemy) (Y_Fov / 2)).x
          < -1 ∨
        1 < (CameraTransform Real.tan (cameraSpace Real.sin Real.cos Player Enemy)
          (Y_Fov / 2)).x ∨
        (CameraTransform Real.tan (cameraSpace Real.sin Real.cos Player Enemy) (Y_Fov / 2)).y
          < -1 ∨
        1 < (CameraTransform Real.tan (cameraSpace Real.sin Real.cos Player Enemy)
          (Y_Fov / 2)).y) →
      (WorldToScreen Real.sin Real.cos Real.tan Player Enemy Y_Fov WindowX WindowY).2.x
        = -1) := by
  have hiff := in_square_iff_frustum (cameraSpace Real.sin Real.cos Player Enemy)
    (Y_Fov / 2) hz (by linarith) (by linarith)
  constructor
  · constructor
    · intro hout
      by_contra hcon
      rw [not_or, not_lt, not_lt] at hcon
      obtain ⟨a, b, c, d⟩ := hiff.mpr hcon
      rcases hout with h | h | h | h <;> linarith
    · intro hviol
      by_contra hcon
      simp only [not_or, not_lt] at hcon
      obtain ⟨a, b⟩ := hiff.mp ⟨hcon.1, hcon.2.1, hcon.2.2.1, hcon.2.2.2⟩
      rcases hviol with h | h <;> linarith
  · intro hout
    apply WorldToScreen_off_square _ _ _ _ _ _ _ _ hz
    rintro ⟨a, b, c, d⟩
    rcases hout with h | h | h | h <;> linarith

theorem WorldToScreen_outside_frustum_witness :
    (0 : ℝ) < 90 ∧ (90 : ℝ) < 180 ∧
    (cameraSpace Real.sin Real.cos ⟨0, 0, 0, 0, 0, 100⟩ ⟨100, 0, -1, 0, 0, 100⟩).z < 0 ∧
    (WorldToScreen Real.sin Real.cos Real.tan ⟨0, 0, 0, 0, 0, 100⟩ ⟨100, 0, -1, 0, 0, 100⟩
      90 800 600).2.x = -1 := by
  have hc : cameraSpace Real.sin Real.cos ⟨0, 0, 0, 0, 0, 100⟩ ⟨100, 0, -1, 0, 0, 100⟩ =
      ⟨100, 0, -1, 0, 0, 100⟩ := by
    rw [cameraSpace_zero_angles _ _ rfl rfl]
    simp only [sub_zero]
  have hz : (cameraSpace Real.sin Real.cos ⟨0, 0, 0, 0, 0, 100⟩
      ⟨100, 0, -1, 0, 0, 100⟩).z < 0 := by
    rw [hc]; norm_num
  refine ⟨by norm_num, by norm_num, hz, ?_⟩
  refine (WorldToScreen_outside_frustum ⟨0, 0, 0, 0, 0, 100⟩ ⟨100, 0, -1, 0, 0, 100⟩
    90 800 600 (by norm_num) (by norm_num) hz).2 (Or.inr (Or.inl ?_))
  rw [hc]
  show (1 : ℝ) < 100 * 1 / -(-1)
  norm_num

/-- C4: with `WindowX ≥ 0` and `WindowY ≥ 0`, on the on-screen branch of
`WorldToScreen` (camera-space `z < 0` and both normalized coordinates in `[-1, 1]`) the
pixel coordinates written satisfy `0 ≤ Enemy.x ≤ WindowX` and `0 ≤ Enemy.y ≤ WindowY`. -/
theorem WorldToScreen_pixel_in_viewport (Player Enemy : Entity ℝ)
    (Y_Fov WindowX WindowY : ℝ) (hWX : WindowX ≥ 0) (hWY : WindowY ≥ 0)
    (hz : (cameraSpace Real.sin Real.cos Player Enemy).z < 0)
    (hin :
      -1 ≤ (CameraTransform Real.tan (cameraSpace Real.sin Real.cos Player Enemy)
        (Y_Fov / 2)).x ∧
      (CameraTransform Real.tan (cameraSpace Real.sin Real.cos Player Enemy) (Y_Fov / 2)).x
        ≤ 1 ∧
      -1 ≤ (CameraTransform Real.tan (cameraSpace Real.sin Real.cos Player Enemy)
        (Y_Fov / 2)).y ∧
      (CameraTransform Real.tan (cameraSpace Real.sin Real.cos Player Enemy) (Y_Fov / 2)).y
        ≤ 1) :
    0 ≤ (WorldToScreen Real.sin Real.cos Real.tan Player Enemy Y_Fov WindowX WindowY).2.x ∧
    (WorldToScreen Real.sin Real.cos Real.tan Player Enemy Y_Fov WindowX WindowY).2.x
      ≤ WindowX ∧
    0 ≤ (WorldToScreen Real.sin Real.cos Real.tan Player Enemy Y_Fov WindowX WindowY).2.y ∧
    (WorldToScreen Real.sin Real.cos Real.tan Player Enemy Y_Fov WindowX WindowY).2.y
      ≤ WindowY := by
  obtain ⟨ex, ey⟩ := WorldToScreen_on_screen Real.sin Real.cos Real.tan Player Enemy Y_Fov
    WindowX WindowY hz hin
  obtain ⟨a, b, c, d⟩ := hin
  rw [ex, ey]
  have h1 := mul_nonneg (by linarith :
    0 ≤ (CameraTransform Real.tan (cameraSpace Real.sin Real.cos Player Enemy)
      (Y_Fov / 2)).x + 1) hWX
  have h2 := mul_nonneg (by linarith :
    0 ≤ 1 - (CameraTransform Real.tan (cameraSpace Real.sin Real.cos Player Enemy)
      (Y_Fov / 2)).x) hWX
  have h3 := mul_nonneg (by linarith :
    0 ≤ (CameraTransform Real.tan (cameraSpace Real.sin Real.cos Player Enemy)
      (Y_Fov / 2)).y + 1) hWY
  have h4 := mul_nonneg (by linarith :
    0 ≤ 1 - (CameraTransform Real.tan (cameraSpace Real.sin Real.cos Player Enemy)
      (Y_Fov / 2)).y) hWY
  refine ⟨by linarith, by linarith, by linarith, by linarith⟩

theorem WorldToScreen_pixel_in_viewport_witness :
    (800 : ℝ) ≥ 0 ∧ (600 : ℝ) ≥ 0 ∧
    (cameraSpace Real.sin Real.cos ⟨0, 0, 0, 0, 0, 100⟩ ⟨5, 0, -10, 0, 0, 100⟩).z < 0 ∧
    0 ≤ (WorldToScreen Real.sin Real.cos Real.tan ⟨0, 0, 0, 0, 0, 100⟩
      ⟨5, 0, -10, 0, 0, 100⟩ 90 800 600).2.x ∧
    (WorldToScreen Real.sin Real.cos Real.tan ⟨0, 0, 0, 0, 0, 100⟩
      ⟨5, 0, -10, 0, 0, 100⟩ 90 800 600).2.x ≤ 800 ∧
    0 ≤ (WorldToScreen Real.sin Real.cos Real.tan ⟨0, 0, 0, 0, 0, 100⟩
      ⟨5, 0, -10, 0, 0, 100⟩ 90 800 600).2.y ∧
    (WorldToScreen Real.sin Real.cos Real.tan ⟨0, 0, 0, 0, 0, 100⟩
      ⟨5, 0, -10, 0, 0, 100⟩ 90 800 600).2.y ≤ 600 := by
  have hc : cameraSpace Real.sin Real.cos ⟨0, 0, 0, 0, 0, 100⟩ ⟨5, 0, -10, 0, 0, 100⟩ =
      ⟨5, 0, -10, 0, 0, 100⟩ := by
    rw [cameraSpace_zero_angles _ _ rfl rfl]
    simp only [sub_zero]
  have hz : (cameraSpace Real.sin Real.cos ⟨0, 0, 0, 0, 0, 100⟩
      ⟨5, 0, -10, 0, 0, 100⟩).z < 0 := by
    rw [hc]; norm_num
  refine ⟨by norm_num, by norm_num, hz, ?_⟩
  refine WorldToScreen_pixel_in_viewport ⟨0, 0, 0, 0, 0, 100⟩ ⟨5, 0, -10, 0, 0, 100⟩
    90 800 600 (by norm_num) (by norm_num) hz ?_
  rw [hc]
  norm_num [CameraTransform]

/-- C9: for a viewpoint with `pitch = yaw = 0`, a target directly ahead on the view
axis (`target.x = viewpoint.x`, `target.y = viewpoint.y`, `target.z < viewpoint.z`),
`0 < Y_Fov < 180` and any viewport, `WorldToScreen` yields the viewport centre:
`Enemy.x = WindowX / 2` and `Enemy.y = WindowY / 2`. -/
theorem WorldToScreen_centre (Player Enemy : Entity ℝ) (Y_Fov WindowX WindowY : ℝ)
    (hp : Player.pitch = 0) (hy : Player.yaw = 0)
    (hx : Enemy.x = Player.x) (hy' : Enemy.y = Player.y) (hz : Enemy.z < Player.z)
    (hF0 : 0 < Y_Fov) (hF180 : Y_Fov < 180) :
    (WorldToScreen Real.sin Real.cos Real.tan Player Enemy Y_Fov WindowX WindowY).2.x
      = WindowX / 2 ∧
    (WorldToScreen Real.sin Real.cos Real.tan Player Enemy Y_Fov WindowX WindowY).2.y
      = WindowY / 2 := by
  have _ := hF0
  have _ := hF180
  have hc := cameraSpace_zero_angles Player Enemy hp hy
  rw [hx, hy', sub_self, sub_self] at hc
  have hcz : (cameraSpace Real.sin Real.cos Player Enemy).z < 0 := by
    rw [hc]; exact sub_neg.mpr hz
  have hnx : (CameraTransform Real.tan (cameraSpace Real.sin Real.cos Player Enemy)
      (Y_Fov / 2)).x = 0 := by
    rw [hc]
    show (0 : ℝ) * 1 / -(Enemy.z - Player.z) = 0
    rw [zero_mul, zero_div]
  have hny : (CameraTransform Real.tan (cameraSpace Real.sin Real.cos Player Enemy)
      (Y_Fov / 2)).y = 0 := by
    rw [hc]
    show (0 : ℝ) * (1 / Real.tan (Y_Fov / 2 * RADIAN ℝ)) / -(Enemy.z - Player.z) = 0
    rw [zero_mul, zero_div]
  obtain ⟨ex, ey⟩ := WorldToScreen_on_screen Real.sin Real.cos Real.tan Player Enemy Y_Fov
    WindowX WindowY hcz (by rw [hnx, hny]; norm_num)
  rw [ex, ey, hnx, hny]
  constructor
  · ring
  · ring

theorem WorldToScreen_centre_witness :
    (WorldToScreen Real.sin Real.cos Real.tan ⟨0, 0, 0, 0, 0, 100⟩ ⟨0, 0, -10, 0, 0, 100⟩
      90 800 600).2.x = 400 ∧
    (WorldToScreen Real.sin Real.cos Real.tan ⟨0, 0, 0, 0, 0, 100⟩ ⟨0, 0, -10, 0, 0, 100⟩
      90 800 600).2.y = 300 := by
  have h := WorldToScreen_centre ⟨0, 0, 0, 0, 0, 100⟩ ⟨0, 0, -10, 0, 0, 100⟩ 90 800 600
    rfl rfl rfl rfl (by norm_num) (by norm_num) (by norm_num)
  norm_num at h
  exact h

/-! ## Algebra of the rotation -/

/-- C11: `RotateAroundAxis` preserves the squared norm in the plane perpendicular to
the rotation axis (about `'X'`: `y'^2 + z'^2 = y^2 + z^2`; about `'Y'`:
`x'^2 + z'^2 = x^2 + z^2`; about `'Z'`: `x'^2 + y'^2 = x^2 + y^2`), and hence the
squared distance from the origin `x^2 + y^2 + z^2` about each of the three axes. -/
theorem RotateAroundAxis_norm (p : Entity ℝ) (angle : ℝ) :
    ((RotateAroundAxis Real.sin Real.cos p 'X' angle).y ^ 2 +
        (RotateAroundAxis Real.sin Real.cos p 'X' angle).z ^ 2 = p.y ^ 2 + p.z ^ 2 ∧
      (RotateAroundAxis Real.sin Real.cos p 'Y' angle).x ^ 2 +
        (RotateAroundAxis Real.sin Real.cos p 'Y' angle).z ^ 2 = p.x ^ 2 + p.z ^ 2 ∧
      (RotateAroundAxis Real.sin Real.cos p 'Z' angle).x ^ 2 +
        (RotateAroundAxis Real.sin Real.cos p 'Z' angle).y ^ 2 = p.x ^ 2 + p.y ^ 2) ∧
    ((RotateAroundAxis Real.sin Real.cos p 'X' angle).x ^ 2 +
        (RotateAroundAxis Real.sin Real.cos p 'X' angle).y ^ 2 +
        (RotateAroundAxis Real.sin Real.cos p 'X' angle).z ^ 2
          = p.x ^ 2 + p.y ^ 2 + p.z ^ 2 ∧
      (RotateAroundAxis Real.sin Real.cos p 'Y' angle).x ^ 2 +
        (RotateAroundAxis Real.sin Real.cos p 'Y' angle).y ^ 2 +
        (RotateAroundAxis Real.sin Real.cos p 'Y' angle).z ^ 2
          = p.x ^ 2 + p.y ^ 2 + p.z ^ 2 ∧
      (RotateAroundAxis Real.sin Real.cos p 'Z' angle).x ^ 2 +
        (RotateAroundAxis Real.sin Real.cos p 'Z' angle).y ^ 2 +
        (RotateAroundAxis Real.sin Real.cos p 'Z' angle).z ^ 2
          = p.x ^ 2 + p.y ^ 2 + p.z ^ 2) := by
  have hs := Real.sin_sq_add_cos_sq (angle * RADIAN ℝ)
  rw [RotateAroundAxis_X, RotateAroundAxis_Y, RotateAroundAxis_Z]
  refine ⟨⟨?_, ?_, ?_⟩, ⟨?_, ?_, ?_⟩⟩
  · show (p.y * Real.cos (angle * RADIAN ℝ) + p.z * -Real.sin (angle * RADIAN ℝ)) ^ 2 +
      (p.y * Real.sin (angle * RADIAN ℝ) + p.z * Real.cos (angle * RADIAN ℝ)) ^ 2 = _
    linear_combination (p.y ^ 2 + p.z ^ 2) * hs
  · show (p.x * Real.cos (angle * RADIAN ℝ) + p.z * Real.sin (angle * RADIAN ℝ)) ^ 2 +
      (p.x * -Real.sin (angle * RADIAN ℝ) + p.z * Real.cos (angle * RADIAN ℝ)) ^ 2 = _
    linear_combination (p.x ^ 2 + p.z ^ 2) * hs
  · show (p.x * Real.cos (angle * RADIAN ℝ) + p.y * -Real.sin (angle * RADIAN ℝ)) ^ 2 +
      (p.x * Real.sin (angle * RADIAN ℝ) + p.y * Real.cos (angle * RADIAN ℝ)) ^ 2 = _
    linear_combination (p.x ^ 2 + p.y ^ 2) * hs
  · show p.x ^ 2 +
      (p.y * Real.cos (angle * RADIAN ℝ) + p.z * -Real.sin (angle * RADIAN ℝ)) ^ 2 +
      (p.y * Real.sin (angle * RADIAN ℝ) + p.z * Real.cos (angle * RADIAN ℝ)) ^ 2 = _
    linear_combination (p.y ^ 2 + p.z ^ 2) * hs
  · show (p.x * Real.cos (angle * RADIAN ℝ) + p.z * Real.sin (angle * RADIAN ℝ)) ^ 2 +
      p.y ^ 2 +
      (p.x * -Real.sin (angle * RADIAN ℝ) + p.z * Real.cos (angle * RADIAN ℝ)) ^ 2 = _
    linear_combination (p.x ^ 2 + p.z ^ 2) * hs
  · show (p.x * Real.cos (angle * RADIAN ℝ) + p.y * -Real.sin (angle * RADIAN ℝ)) ^ 2 +
      (p.x * Real.sin (angle * RADIAN ℝ) + p.y * Real.cos (angle * RADIAN ℝ)) ^ 2 +
      p.z ^ 2 = _
    linear_combination (p.x ^ 2 + p.y ^ 2) * hs

/-- C12: about an axis in `'X'`, `'Y'`, `'Z'`, `RotateAroundAxis` with angle 0 returns
the point exactly unchanged. -/
theorem RotateAroundAxis_zero (p : Entity ℝ) (Axis : Char)
    (hAxis : Axis = 'X' ∨ Axis = 'Y' ∨ Axis = 'Z') :
    RotateAroundAxis Real.sin Real.cos p Axis 0 = p := by
  rcases p with ⟨x, y, z, pitch, yaw, hp⟩
  rcases hAxis with h | h | h
  · subst h
    rw [RotateAroundAxis_X]
    simp only [zero_mul, Real.sin_zero, Real.cos_zero, neg_zero, mul_one, mul_zero,
      add_zero, zero_add]
  · subst h
    rw [RotateAroundAxis_Y]
    simp only [zero_mul, Real.sin_zero, Real.cos_zero, neg_zero, mul_one, mul_zero,
      add_zero, zero_add]
  · subst h
    rw [RotateAroundAxis_Z]
    simp only [zero_mul, Real.sin_zero, Real.cos_zero, neg_zero, mul_one, mul_zero,
      add_zero, zero_add]

theorem RotateAroundAxis_zero_witness :
    (('Z' : Char) = 'X' ∨ ('Z' : Char) = 'Y' ∨ ('Z' : Char) = 'Z') ∧
    RotateAroundAxis Real.sin Real.cos ⟨1, 2, 3, 10, 20, 100⟩ 'Z' 0 =
      ⟨1, 2, 3, 10, 20, 100⟩ :=
  ⟨Or.inr (Or.inr rfl),
    RotateAroundAxis_zero ⟨1, 2, 3, 10, 20, 100⟩ 'Z' (Or.inr (Or.inr rfl))⟩

/-- C20: about an axis in `'X'`, `'Y'`, `'Z'`, `RotateAroundAxis` by `a` followed by
`RotateAroundAxis` by `b` gives the same point (x, y, z and the other fields) as a
single `RotateAroundAxis` by `a + b`. -/
theorem RotateAroundAxis_add (p : Entity ℝ) (Axis : Char) (a b : ℝ)
    (hAxis : Axis = 'X' ∨ Axis = 'Y' ∨ Axis = 'Z') :
    RotateAroundAxis Real.sin Real.cos (RotateAroundAxis Real.sin Real.cos p Axis a) Axis b
      = RotateAroundAxis Real.sin Real.cos p Axis (a + b) := by
  rcases p with ⟨x, y, z, pitch, yaw, hp⟩
  rcases hAxis with h | h | h
  · subst h
    rw [RotateAroundAxis_X, RotateAroundAxis_X, RotateAroundAxis_X]
    simp only [add_mul, Real.sin_add, Real.cos_add, Entity.mk.injEq, true_and, and_true]
    constructor <;> ring
  · subst h
    rw [RotateAroundAxis_Y, RotateAroundAxis_Y, RotateAroundAxis_Y]
    simp only [add_mul, Real.sin_add, Real.cos_add, Entity.mk.injEq, true_and, and_true]
    constructor <;> ring
  · subst h
    rw [RotateAroundAxis_Z, RotateAroundAxis_Z, RotateAroundAxis_Z]
    simp only [add_mul, Real.sin_add, Real.cos_add, Entity.mk.injEq, true_and, and_true]
    constructor <;> ring

theorem RotateAroundAxis_add_witness :
    (('X' : Char) = 'X' ∨ ('X' : Char) = 'Y' ∨ ('X' : Char) = 'Z') ∧
    RotateAroundAxis Real.sin Real.cos
      (RotateAroundAxis Real.sin Real.cos ⟨1, 2, 3, 10, 20, 100⟩ 'X' 30) 'X' 45
      = RotateAroundAxis Real.sin Real.cos ⟨1, 2, 3, 10, 20, 100⟩ 'X' (30 + 45) :=
  ⟨Or.inl rfl, RotateAroundAxis_add ⟨1, 2, 3, 10, 20, 100⟩ 'X' 30 45 (Or.inl rfl)⟩

/-- C13: with the code's constant `RADIAN = 0.0174532925`, `RotateAroundAxis` by 360
about `'X'`, `'Y'` or `'Z'` leaves the axis coordinate exactly unchanged and moves each
of the two recombined coordinates `a`, `b` by at most `1e-5 * (|a| + |b|)`. -/
theorem RotateAroundAxis_full_turn (p : Entity ℝ) :
    ((RotateAroundAxis Real.sin Real.cos p 'X' 360).x = p.x ∧
      |(RotateAroundAxis Real.sin Real.cos p 'X' 360).y - p.y| ≤ 0.00001 * (|p.y| + |p.z|) ∧
      |(RotateAroundAxis Real.sin Real.cos p 'X' 360).z - p.z| ≤ 0.00001 * (|p.y| + |p.z|)) ∧
    ((RotateAroundAxis Real.sin Real.cos p 'Y' 360).y = p.y ∧
      |(RotateAroundAxis Real.sin Real.cos p 'Y' 360).x - p.x| ≤ 0.00001 * (|p.x| + |p.z|) ∧
      |(RotateAroundAxis Real.sin Real.cos p 'Y' 360).z - p.z| ≤ 0.00001 * (|p.x| + |p.z|)) ∧
    ((RotateAroundAxis Real.sin Real.cos p 'Z' 360).z = p.z ∧
      |(RotateAroundAxis Real.sin Real.cos p 'Z' 360).x - p.x| ≤ 0.00001 * (|p.x| + |p.y|) ∧
      |(RotateAroundAxis Real.sin Real.cos p 'Z' 360).y - p.y| ≤ 0.00001 * (|p.x| + |p.y|)) := by
  obtain ⟨hs, hc⟩ := sin_cos_full_turn
  have hs' : |-Real.sin (360 * RADIAN ℝ)| ≤ 0.00001 := by rw [abs_neg]; exact hs
  rw [RotateAroundAxis_X, RotateAroundAxis_Y, RotateAroundAxis_Z]
  refine ⟨⟨rfl, ?_, ?_⟩, ⟨rfl, ?_, ?_⟩, ⟨rfl, ?_, ?_⟩⟩
  · exact mix_close p.y p.z _ _ _ hs' hc
  · show |p.y * Real.sin (360 * RADIAN ℝ) + p.z * Real.cos (360 * RADIAN ℝ) - p.z| ≤ _
    rw [add_comm (p.y * _), add_comm |p.y|]
    exact mix_close p.z p.y _ _ _ hs hc
  · exact mix_close p.x p.z _ _ _ hs hc
  · show |p.x * -Real.sin (360 * RADIAN ℝ) + p.z * Real.cos (360 * RADIAN ℝ) - p.z| ≤ _
    rw [add_comm (p.x * _), add_comm |p.x|]
    exact mix_close p.z p.x _ _ _ hs' hc
  · exact mix_close p.x p.y _ _ _ hs' hc
  · show |p.x * Real.sin (360 * RADIAN ℝ) + p.y * Real.cos (360 * RADIAN ℝ) - p.y| ≤ _
    rw [add_comm (p.x * _), add_comm |p.x|]
    exact mix_close p.y p.x _ _ _ hs hc

/-! ## The degree-to-radian constant -/

/-- C16, as stated, fails: the constant `RADIAN` with which `RotateAroundAxis` forms the
arguments of `sin` and `cos` is not equal to `π / 180`. -/
theorem RADIAN_ne_pi_div_180 : RADIAN ℝ ≠ Real.pi / 180 := by
  have hgt := Real.pi_gt_d20
  unfold RADIAN
  intro h
  norm_num at hgt h
  linarith

/-- C16, amended: `RotateAroundAxis` forms the arguments of `sin` and `cos` as
`angle * RADIAN` where `RADIAN` is the decimal constant `0.0174532925`, which
approximates `π / 180` from below with an error under `2e-11`. -/
theorem RADIAN_approx (p : Entity ℝ) (angle : ℝ) :
    RADIAN ℝ = 0.0174532925 ∧
    RADIAN ℝ < Real.pi / 180 ∧ Real.pi / 180 - RADIAN ℝ < 0.00000000002 ∧
    (RotateAroundAxis Real.sin Real.cos p 'X' angle).y =
      p.y * Real.cos (angle * RADIAN ℝ) + p.z * -Real.sin (angle * RADIAN ℝ) ∧
    (RotateAroundAxis Real.sin Real.cos p 'Y' angle).x =
      p.x * Real.cos (angle * RADIAN ℝ) + p.z * Real.sin (angle * RADIAN ℝ) ∧
    (RotateAroundAxis Real.sin Real.cos p 'Z' angle).x =
      p.x * Real.cos (angle * RADIAN ℝ) + p.y * -Real.sin (angle * RADIAN ℝ) := by
  have hgt := Real.pi_gt_d20
  have hlt := Real.pi_lt_d20
  refine ⟨rfl, ?_, ?_, ?_, ?_, ?_⟩
  · unfold RADIAN
    norm_num at hgt ⊢
    linarith
  · unfold RADIAN
    norm_num at hlt ⊢
    linarith
  · rw [RotateAroundAxis_X]
  · rw [RotateAroundAxis_Y]
  · rw [RotateAroundAxis_Z]

/-! ## What `CameraTransform` does to `z` -/

/-- C17 fails on the code: at the point `(2, 3, -4)` with half field of view 45,
`CameraTransform` leaves `z = -4`, not the documented `(z + 2) / -z = -1/2`. -/
theorem CameraTransform_z_not_written :
    (CameraTransform Real.tan ⟨2, 3, -4, 0, 0, 100⟩ 45).z = -4 ∧
    (CameraTransform Real.tan ⟨2, 3, -4, 0, 0, 100⟩ 45).z ≠ (-4 + 2) / -(-4) := by
  rw [CameraTransform_z]
  norm_num

/-! ## Calls of `CameraTransform` from `WorldToScreen` -/

/-- C14: in every run of `WorldToScreen`, each call of `CameraTransform` is on a point
with `z < 0`, so its divisor `-z` is strictly positive and not zero; the call is made
(once, on the camera-space point with `Y_Fov / 2`) exactly when the camera-space z is
negative, the case `z ≥ 0` having returned before it. -/
theorem WorldToScreen_CameraTransform_precondition (Player Enemy : Entity ℝ)
    (Y_Fov WindowX WindowY : ℝ) :
    (WorldToScreenTraced Real.sin Real.cos Real.tan Player Enemy Y_Fov WindowX WindowY).1 =
      WorldToScreen Real.sin Real.cos Real.tan Player Enemy Y_Fov WindowX WindowY ∧
    (∀ call ∈
        (WorldToScreenTraced Real.sin Real.cos Real.tan Player Enemy Y_Fov WindowX WindowY).2,
      call.1.z < 0 ∧ 0 < -call.1.z ∧ -call.1.z ≠ 0) ∧
    ((cameraSpace Real.sin Real.cos Player Enemy).z ≥ 0 →
      (WorldToScreenTraced Real.sin Real.cos Real.tan Player Enemy Y_Fov WindowX WindowY).2
        = []) ∧
    ((cameraSpace Real.sin Real.cos Player Enemy).z < 0 →
      (WorldToScreenTraced Real.sin Real.cos Real.tan Player Enemy Y_Fov WindowX WindowY).2
        = [(cameraSpace Real.sin Real.cos Player Enemy, Y_Fov / 2)]) := by
  refine ⟨WorldToScreenTraced_fst _ _ _ _ _ _ _ _, ?_, ?_, ?_⟩
  · intro call hcall
    rw [WorldToScreenTraced_snd] at hcall
    split_ifs at hcall with hz
    · simp only [List.not_mem_nil] at hcall
    · rw [List.mem_singleton] at hcall
      have hneg : call.1.z < 0 := by rw [hcall]; exact not_le.mp hz
      exact ⟨hneg, neg_pos.mpr hneg, ne_of_gt (neg_pos.mpr hneg)⟩
  · intro hz
    rw [WorldToScreenTraced_snd, if_pos hz]
  · intro hz
    rw [WorldToScreenTraced_snd, if_neg (not_le.mpr hz)]

theorem WorldToScreen_CameraTransform_precondition_witness :
    (WorldToScreenTraced Real.sin Real.cos Real.tan ⟨0, 0, 0, 0, 0, 100⟩
      ⟨5, 0, -10, 0, 0, 100⟩ 90 800 600).2 = [(⟨5, 0, -10, 0, 0, 100⟩, 90 / 2)] := by
  have hc : cameraSpace Real.sin Real.cos ⟨0, 0, 0, 0, 0, 100⟩ ⟨5, 0, -10, 0, 0, 100⟩ =
      ⟨5, 0, -10, 0, 0, 100⟩ := by
    rw [cameraSpace_zero_angles _ _ rfl rfl]
    simp only [sub_zero]
  have h := (WorldToScreen_CameraTransform_precondition ⟨0, 0, 0, 0, 0, 100⟩
    ⟨5, 0, -10, 0, 0, 100⟩ 90 800 600).2.2.2 (by rw [hc]; norm_num)
  rw [hc] at h
  exact h

/-! ## Frame of `WorldToScreen` -/

/-- C15: with the viewpoint and the target being distinct objects, `WorldToScreen` does
not mutate the viewpoint (every field of `*Player` is the same after the call as before)
nor any object other than the target, and of the target it leaves pitch, yaw and hp
unchanged; the target ends as the second component of the pair model, whose first
component is the viewpoint. -/
theorem WorldToScreen_frame (mem : Nat → Entity ℝ) (Player Enemy : Nat)
    (Y_Fov WindowX WindowY : ℝ) (hne : Player ≠ Enemy) :
    WorldToScreenMem Real.sin Real.cos Real.tan mem Player Enemy Y_Fov WindowX WindowY Player = mem Player ∧
    (∀ a, a ≠ Enemy →
      WorldToScreenMem Real.sin Real.cos Real.tan mem Player Enemy Y_Fov WindowX WindowY a = mem a) ∧
    (WorldToScreenMem Real.sin Real.cos Real.tan mem Player Enemy Y_Fov WindowX WindowY Enemy).pitch
      = (mem Enemy).pitch ∧
    (WorldToScreenMem Real.sin Real.cos Real.tan mem Player Enemy Y_Fov WindowX WindowY Enemy).yaw
      = (mem Enemy).yaw ∧
    (WorldToScreenMem Real.sin Real.cos Real.tan mem Player Enemy Y_Fov WindowX WindowY Enemy).hp
      = (mem Enemy).hp ∧
    WorldToScreenMem Real.sin Real.cos Real.tan mem Player Enemy Y_Fov WindowX WindowY Enemy =
      (WorldToScreen Real.sin Real.cos Real.tan (mem Player) (mem Enemy)
        Y_Fov WindowX WindowY).2 ∧
    (WorldToScreen Real.sin Real.cos Real.tan (mem Player) (mem Enemy)
      Y_Fov WindowX WindowY).1 = mem Player := by
  have ht := WorldToScreenMem_target Real.sin Real.cos Real.tan mem Player Enemy
    Y_Fov WindowX WindowY hne
  obtain ⟨h1, h2, h3⟩ := WorldToScreen_fields Real.sin Real.cos Real.tan
    (mem Player) (mem Enemy) Y_Fov WindowX WindowY
  refine ⟨WorldToScreenMem_other _ _ _ _ _ _ _ _ _ _ hne,
    fun a ha => WorldToScreenMem_other _ _ _ _ _ _ _ _ _ _ ha, ?_, ?_, ?_, ht,
    WorldToScreen_fst _ _ _ _ _ _ _ _⟩
  · rw [ht]; exact h1
  · rw [ht]; exact h2
  · rw [ht]; exact h3

theorem WorldToScreen_frame_witness :
    (0 : Nat) ≠ 1 ∧
    WorldToScreenMem Real.sin Real.cos Real.tan
      (fun n => if n = 0 then ⟨1, 2, 3, 10, 20, 100⟩ else ⟨5, 0, -10, 0, 0, 50⟩)
      0 1 90 800 600 0 = ⟨1, 2, 3, 10, 20, 100⟩ ∧
    (WorldToScreenMem Real.sin Real.cos Real.tan
      (fun n => if n = 0 then ⟨1, 2, 3, 10, 20, 100⟩ else ⟨5, 0, -10, 0, 0, 50⟩)
      0 1 90 800 600 1).hp = 50 := by
  have h := WorldToScreen_frame
    (fun n => if n = 0 then ⟨1, 2, 3, 10, 20, 100⟩ else ⟨5, 0, -10, 0, 0, 50⟩)
    0 1 90 800 600 (by decide)
  refine ⟨by decide, ?_, ?_⟩
  · rw [h.1]; simp only [if_true]
  · rw [h.2.2.2.2.1]; simp only [one_ne_zero, if_false]

/-! ## The off-screen marker -/

/-- C18: for `WindowX ≥ 0`, `WorldToScreen` leaves `Enemy.x = -1` if and only if the
target is off-screen (camera-space `z ≥ 0`, or a normalized coordinate outside
`[-1, 1]`) and leaves `Enemy.x ≥ 0` otherwise; so the test `Enemy.x ≥ 0` of `main`
holds exactly for on-screen targets. -/
theorem WorldToScreen_marker (Player Enemy : Entity ℝ) (Y_Fov WindowX WindowY : ℝ)
    (hWX : WindowX ≥ 0) :
    ((WorldToScreen Real.sin Real.cos Real.tan Player Enemy Y_Fov WindowX WindowY).2.x = -1 ↔
      ((cameraSpace Real.sin Real.cos Player Enemy).z ≥ 0 ∨
        (CameraTransform Real.tan (cameraSpace Real.sin Real.cos Player Enemy) (Y_Fov / 2)).x < -1 ∨
        1 < (CameraTransform Real.tan (cameraSpace Real.sin Real.cos Player Enemy) (Y_Fov / 2)).x ∨
        (CameraTransform Real.tan (cameraSpace Real.sin Real.cos Player Enemy) (Y_Fov / 2)).y < -1 ∨
        1 < (CameraTransform Real.tan (cameraSpace Real.sin Real.cos Player Enemy) (Y_Fov / 2)).y)) ∧
    (¬ ((cameraSpace Real.sin Real.cos Player Enemy).z ≥ 0 ∨
        (CameraTransform Real.tan (cameraSpace Real.sin Real.cos Player Enemy) (Y_Fov / 2)).x < -1 ∨
        1 < (CameraTransform Real.tan (cameraSpace Real.sin Real.cos Player Enemy) (Y_Fov / 2)).x ∨
        (CameraTransform Real.tan (cameraSpace Real.sin Real.cos Player Enemy) (Y_Fov / 2)).y < -1 ∨
        1 < (CameraTransform Real.tan (cameraSpace Real.sin Real.cos Player Enemy) (Y_Fov / 2)).y) →
      (WorldToScreen Real.sin Real.cos Real.tan Player Enemy Y_Fov WindowX WindowY).2.x ≥ 0) ∧
    ((WorldToScreen Real.sin Real.cos Real.tan Player Enemy Y_Fov WindowX WindowY).2.x ≥ 0 ↔
      ¬ ((cameraSpace Real.sin Real.cos Player Enemy).z ≥ 0 ∨
        (CameraTransform Real.tan (cameraSpace Real.sin Real.cos Player Enemy) (Y_Fov / 2)).x < -1 ∨
        1 < (CameraTransform Real.tan (cameraSpace Real.sin Real.cos Player Enemy) (Y_Fov / 2)).x ∨
        (CameraTransform Real.tan (cameraSpace Real.sin Real.cos Player Enemy) (Y_Fov / 2)).y < -1 ∨
        1 < (CameraTransform Real.tan (cameraSpace Real.sin Real.cos Player Enemy) (Y_Fov / 2)).y)) := by
  by_cases hz : (cameraSpace Real.sin Real.cos Player Enemy).z ≥ 0
  · have hx := WorldToScreen_behind Real.sin Real.cos Real.tan Player Enemy Y_Fov
      WindowX WindowY hz
    rw [hx]
    refine ⟨⟨fun _ => Or.inl hz, fun _ => rfl⟩, fun h => absurd (Or.inl hz) h, ?_⟩
    constructor
    · intro h; norm_num at h
    · intro h; exact absurd (Or.inl hz) h
  · have hz' : (cameraSpace Real.sin Real.cos Player Enemy).z < 0 := not_le.mp hz
    by_cases hin : (CameraTransform Real.tan (cameraSpace Real.sin Real.cos Player Enemy) (Y_Fov / 2)).x ≥ -1 ∧
        (CameraTransform Real.tan (cameraSpace Real.sin Real.cos Player Enemy) (Y_Fov / 2)).x ≤ 1 ∧
        (CameraTransform Real.tan (cameraSpace Real.sin Real.cos Player Enemy) (Y_Fov / 2)).y ≥ -1 ∧
        (CameraTransform Real.tan (cameraSpace Real.sin Real.cos Player Enemy) (Y_Fov / 2)).y ≤ 1
    · obtain ⟨ex, _⟩ := WorldToScreen_on_screen Real.sin Real.cos Real.tan Player Enemy
        Y_Fov WindowX WindowY hz' hin
      obtain ⟨a, b, c, d⟩ := hin
      have hpos : 0 ≤ ((CameraTransform Real.tan (cameraSpace Real.sin Real.cos Player Enemy) (Y_Fov / 2)).x + 1)
          * WindowX / 2 :=
        div_nonneg (mul_nonneg (by linarith) hWX) (by norm_num)
      have hnot : ¬ ((cameraSpace Real.sin Real.cos Player Enemy).z ≥ 0 ∨
        (CameraTransform Real.tan (cameraSpace Real.sin Real.cos Player Enemy) (Y_Fov / 2)).x < -1 ∨
        1 < (CameraTransform Real.tan (cameraSpace Real.sin Real.cos Player Enemy) (Y_Fov / 2)).x ∨
        (CameraTransform Real.tan (cameraSpace Real.sin Real.cos Player Enemy) (Y_Fov / 2)).y < -1 ∨
        1 < (CameraTransform Real.tan (cameraSpace Real.sin Real.cos Player Enemy) (Y_Fov / 2)).y) := by
        rintro (h | h | h | h | h)
        · exact hz h
        · linarith
        · linarith
        · linarith
        · linarith
      rw [ex]
      refine ⟨⟨fun h => ?_, fun h => absurd h hnot⟩, fun _ => hpos,
        ⟨fun _ => hnot, fun _ => hpos⟩⟩
      linarith
    · have hx := WorldToScreen_off_square Real.sin Real.cos Real.tan Player Enemy Y_Fov
        WindowX WindowY hz' hin
      have hoff : ((cameraSpace Real.sin Real.cos Player Enemy).z ≥ 0 ∨
        (CameraTransform Real.tan (cameraSpace Real.sin Real.cos Player Enemy) (Y_Fov / 2)).x < -1 ∨
        1 < (CameraTransform Real.tan (cameraSpace Real.sin Real.cos Player Enemy) (Y_Fov / 2)).x ∨
        (CameraTransform Real.tan (cameraSpace Real.sin Real.cos Player Enemy) (Y_Fov / 2)).y < -1 ∨
        1 < (CameraTransform Real.tan (cameraSpace Real.sin Real.cos Player Enemy) (Y_Fov / 2)).y) := by
        by_contra hcon
        simp only [not_or, not_lt] at hcon
        exact hin ⟨hcon.2.1, hcon.2.2.1, hcon.2.2.2.1, hcon.2.2.2.2⟩
      rw [hx]
      refine ⟨⟨fun _ => hoff, fun _ => rfl⟩, fun h => absurd hoff h, ?_⟩
      constructor
      · intro h; norm_num at h
      · intro h; exact absurd hoff h

theorem WorldToScreen_marker_witness :
    (800 : ℝ) ≥ 0 ∧
    (WorldToScreen Real.sin Real.cos Real.tan ⟨0, 0, 0, 0, 0, 100⟩ ⟨0, 0, 10, 0, 0, 100⟩
      90 800 600).2.x = -1 := by
  have hc : cameraSpace Real.sin Real.cos ⟨0, 0, 0, 0, 0, 100⟩ ⟨0, 0, 10, 0, 0, 100⟩ =
      ⟨0, 0, 10, 0, 0, 100⟩ := by
    rw [cameraSpace_zero_angles _ _ rfl rfl]
    simp only [sub_zero]
  refine ⟨by norm_num, ?_⟩
  refine (WorldToScreen_marker ⟨0, 0, 0, 0, 0, 100⟩ ⟨0, 0, 10, 0, 0, 100⟩
    90 800 600 (by norm_num)).1.mpr (Or.inl ?_)
  rw [hc]
  norm_num

/-! ## Depth left in `Enemy.z` -/

/-- C19: `WorldToScreen` leaves `Enemy.z` equal to the camera-space depth of the
target, and whenever it reports on-screen (`WindowX ≥ 0` and resulting `Enemy.x ≥ 0`)
that z is strictly negative, so the divisor `-Enemy.z` of `BoxSize` in `main` is
strictly positive. -/
theorem WorldToScreen_depth (Player Enemy : Entity ℝ) (Y_Fov WindowX WindowY : ℝ) :
    (WorldToScreen Real.sin Real.cos Real.tan Player Enemy Y_Fov WindowX WindowY).2.z =
      (cameraSpace Real.sin Real.cos Player Enemy).z ∧
    (WindowX ≥ 0 →
      (WorldToScreen Real.sin Real.cos Real.tan Player Enemy Y_Fov WindowX WindowY).2.x ≥ 0 →
      (WorldToScreen Real.sin Real.cos Real.tan Player Enemy Y_Fov WindowX WindowY).2.z < 0 ∧
      0 < -(WorldToScreen Real.sin Real.cos Real.tan Player Enemy Y_Fov WindowX WindowY).2.z) := by
  have hzeq := WorldToScreen_z Real.sin Real.cos Real.tan Player Enemy Y_Fov WindowX WindowY
  refine ⟨hzeq, fun _ hx => ?_⟩
  have hneg : (WorldToScreen Real.sin Real.cos Real.tan Player Enemy Y_Fov WindowX WindowY).2.z < 0 := by
    rw [hzeq]
    by_contra hcon
    have hb := WorldToScreen_behind Real.sin Real.cos Real.tan Player Enemy Y_Fov
      WindowX WindowY (not_lt.mp hcon)
    rw [hb] at hx
    norm_num at hx
  exact ⟨hneg, neg_pos.mpr hneg⟩

theorem WorldToScreen_depth_witness :
    (800 : ℝ) ≥ 0 ∧
    (WorldToScreen Real.sin Real.cos Real.tan ⟨0, 0, 0, 0, 0, 100⟩ ⟨5, 0, -10, 0, 0, 100⟩
      90 800 600).2.x ≥ 0 ∧
    (WorldToScreen Real.sin Real.cos Real.tan ⟨0, 0, 0, 0, 0, 100⟩ ⟨5, 0, -10, 0, 0, 100⟩
      90 800 600).2.z = -10 ∧
    (0 : ℝ) < -(WorldToScreen Real.sin Real.cos Real.tan ⟨0, 0, 0, 0, 0, 100⟩
      ⟨5, 0, -10, 0, 0, 100⟩ 90 800 600).2.z := by
  have hc : cameraSpace Real.sin Real.cos ⟨0, 0, 0, 0, 0, 100⟩ ⟨5, 0, -10, 0, 0, 100⟩ =
      ⟨5, 0, -10, 0, 0, 100⟩ := by
    rw [cameraSpace_zero_angles _ _ rfl rfl]
    simp only [sub_zero]
  have hx : (WorldToScreen Real.sin Real.cos Real.tan ⟨0, 0, 0, 0, 0, 100⟩
      ⟨5, 0, -10, 0, 0, 100⟩ 90 800 600).2.x ≥ 0 := by
    obtain ⟨ex, _⟩ := WorldToScreen_on_screen Real.sin Real.cos Real.tan
      ⟨0, 0, 0, 0, 0, 100⟩ ⟨5, 0, -10, 0, 0, 100⟩ 90 800 600
      (by rw [hc]; norm_num) (by rw [hc]; norm_num [CameraTransform])
    rw [ex, hc]
    norm_num [CameraTransform]
  have h := WorldToScreen_depth ⟨0, 0, 0, 0, 0, 100⟩ ⟨5, 0, -10, 0, 0, 100⟩ 90 800 600
  have hz := h.1
  rw [hc] at hz
  exact ⟨by norm_num, hx, hz, (h.2 (by norm_num) hx).2⟩

end HeadESP
